import Mathlib

/-!
# Panaderia: the order handler `POST /api/carrito/guardar` (src/app.js, lines 204-268)

The handler is embedded once, as a tree of store operations (`Proc`), and given
two semantics over the same store operations:

* `exec`: one handler running alone against the store (`placeOrder`);
* `correr`: two handlers whose store operations are interleaved by a schedule.

Modelling choices.

* Table `pan` is a list of rows; `SELECT ... WHERE id = ?` filters it and
  `UPDATE ... WHERE id = ?` rewrites every matching row.  Table `pedidos` is a
  list of rows in insertion order (the position stands for the auto identity).
* JSON numbers: `id` and `cantidad` are integers (`Int`), `precio` is a rational.
  On such values `parseInt` and `parseFloat` return their argument.
* The store is fault free: no query, commit or rollback throws on its own.
-/

namespace Panaderia

/-! ## Data model -/

/-- Row of table `pan`. -/
structure PanRow where
  id : Int
  nombre : String
  descripcion : Option String
  precio : Rat
  cantidad : Int
  imagen_url : Option String
deriving DecidableEq

/-- Row of table `pedidos`, columns `(nombre, precio, cantidad)` of the INSERT. -/
structure Pedido where
  nombre : String
  precio : Rat
  cantidad : Int
deriving DecidableEq

/-- Element of `req.body.productos`. -/
structure Producto where
  id : Int
  nombre : String
  precio : Rat
  cantidad : Int
deriving DecidableEq

/-- The two tables the handler touches. -/
structure Db where
  pan : List PanRow
  pedidos : List Pedido
deriving DecidableEq

/-- JSON body of a response. -/
inductive Body where
  | error (mensaje : String)
  | success (mensaje : String)
deriving DecidableEq

/-- What `res.status(..).json(..)` sends; `res.json(..)` alone sends status 200. -/
structure Response where
  status : Nat
  body : Body
deriving DecidableEq

/-- `parseInt` on an integer-valued number. -/
def parseInt (n : Int) : Int := n

/-- `parseFloat` on a number. -/
def parseFloat (x : Rat) : Rat := x

/-! ## Store operations -/

/-- Calls the handler makes on the pool and on the connection. -/
inductive Op where
  | getConnection
  | beginTransaction
  | selectCantidad (id : Int)
  | insertPedido (nombre : String) (precio : Rat) (cantidad : Int)
  | updatePan (cantidad : Int) (id : Int)
  | commit
  | rollback
  | release
deriving DecidableEq

/-- `SELECT cantidad FROM pan WHERE id = ?`. -/
def selectCantidadPan (pan : List PanRow) (id : Int) : List Int :=
  (pan.filter fun r => r.id = id).map fun r => r.cantidad

/-- `UPDATE pan SET cantidad = cantidad - ? WHERE id = ?`. -/
def updateCantidadPan (pan : List PanRow) (cantidad : Int) (id : Int) : List PanRow :=
  pan.map fun r => if r.id = id then { r with cantidad := r.cantidad - cantidad } else r

/-- A write of an open transaction, not yet committed. -/
inductive Write where
  | insertPedido (fila : Pedido)
  | updatePan (cantidad : Int) (id : Int)
deriving DecidableEq

/-- Effect of one write on the tables. -/
def Write.aplicar (w : Write) (db : Db) : Db :=
  match w with
  | .insertPedido fila => { db with pedidos := db.pedidos ++ [fila] }
  | .updatePan cantidad id => { db with pan := updateCantidadPan db.pan cantidad id }

/-- The committed tables with the pending writes of a transaction applied in order. -/
def aplicarPendientes (committed : Db) (pendientes : List Write) : Db :=
  pendientes.foldl (fun db w => w.aplicar db) committed

/-! ## The handler -/

/-- Handler code as a tree of store calls: each call hands the rows it returns
to the rest of the code. -/
inductive Proc where
  | call (o : Op) (k : List Int → Proc)
  | respond (r : Response) (k : Proc)
  | done

/-- The `error.message || 'Error al guardar el pedido'` of line 261. -/
def mensajeRespuesta (message : String) : String :=
  if message = "" then "Error al guardar el pedido" else message

/-- The `catch` block followed by `finally` (lines 255-267). -/
def catchBlock (connection : Bool) (message : String) : Proc :=
  let respuesta : Response := ⟨500, .error (mensajeRespuesta message)⟩
  if connection then
    .call .rollback fun _ => .respond respuesta (.call .release fun _ => .done)
  else
    .respond respuesta .done

/-- Message of the error thrown at line 223. -/
def mensajeNoEncontrado (id : Int) : String :=
  "Producto con ID " ++ toString id ++ " no encontrado"

/-- Message of the error thrown at line 229. -/
def mensajeStockInsuficiente (nombre : String) (cantidadDisponible cantidad : Int) : String :=
  "Stock insuficiente para " ++ nombre ++ ". Disponible: " ++ toString cantidadDisponible
    ++ ", Solicitado: " ++ toString cantidad

/-- The `for (const producto of productos)` loop (lines 216-245), followed by `k`. -/
def forProductos : List Producto → Proc → Proc
  | [], k => k
  | producto :: resto, k =>
    .call (.selectCantidad producto.id) fun stockCheck =>
      match stockCheck with
      | [] => catchBlock true (mensajeNoEncontrado producto.id)
      | cantidadDisponible :: _ =>
        if cantidadDisponible < producto.cantidad then
          catchBlock true
            (mensajeStockInsuficiente producto.nombre cantidadDisponible producto.cantidad)
        else
          .call (.insertPedido producto.nombre (parseFloat producto.precio)
              (parseInt producto.cantidad)) fun _ =>
            .call (.updatePan (parseInt producto.cantidad) producto.id) fun _ =>
              forProductos resto k

/-- Response of line 210. -/
def respuestaVacio : Response := ⟨400, .error "El carrito está vacío"⟩

/-- Response of lines 250-253. -/
def respuestaOk : Response :=
  ⟨200, .success "Pedido guardado correctamente y stock actualizado"⟩

/-- The handler of `POST /api/carrito/guardar`; `productos` is `none` when the
body has no such field. -/
def guardarCarrito (productos : Option (List Producto)) : Proc :=
  match productos with
  | none => .respond respuestaVacio .done
  | some productos =>
    if productos.length = 0 then
      .respond respuestaVacio .done
    else
      .call .getConnection fun _ =>
        .call .beginTransaction fun _ =>
          forProductos productos
            (.call .commit fun _ =>
              .respond respuestaOk (.call .release fun _ => .done))

/-! ## One handler alone -/

/-- Store and connection as one handler sees them. -/
structure Estado where
  committed : Db
  tx : Option (List Write)
  log : List Op
  responses : List Response
deriving DecidableEq

/-- The tables a query of this connection reads. -/
def Estado.vista (s : Estado) : Db :=
  match s.tx with
  | some pendientes => aplicarPendientes s.committed pendientes
  | none => s.committed

/-- A write of this connection: pending inside a transaction, immediate outside. -/
def Estado.escribir (s : Estado) (w : Write) : Estado :=
  match s.tx with
  | some pendientes => { s with tx := some (pendientes ++ [w]) }
  | none => { s with committed := w.aplicar s.committed }

/-- Rows returned by a call. -/
def resultado (o : Op) (s : Estado) : List Int :=
  match o with
  | .selectCantidad id => selectCantidadPan s.vista.pan id
  | _ => []

/-- State after a call; the call is appended to the log. -/
def efecto (o : Op) (s : Estado) : Estado :=
  let s := { s with log := s.log ++ [o] }
  match o with
  | .getConnection => s
  | .beginTransaction => { s with committed := s.vista, tx := some [] }
  | .selectCantidad _ => s
  | .insertPedido nombre precio cantidad => s.escribir (.insertPedido ⟨nombre, precio, cantidad⟩)
  | .updatePan cantidad id => s.escribir (.updatePan cantidad id)
  | .commit => { s with committed := s.vista, tx := none }
  | .rollback => { s with tx := none }
  | .release => s

/-- Run a handler to its end. -/
def exec : Proc → Estado → Estado
  | .call o k, s => exec (k (resultado o s)) (efecto o s)
  | .respond r k, s => exec k { s with responses := s.responses ++ [r] }
  | .done, s => s

/-- One request served alone against tables `db`. -/
def placeOrder (productos : Option (List Producto)) (db : Db) : Estado :=
  exec (guardarCarrito productos) ⟨db, none, [], []⟩

/-- Stock of product `id`: the `cantidad` the handler reads for it. -/
def stockOf (pan : List PanRow) (id : Int) : Option Int :=
  (selectCantidadPan pan id).head?

/-- Total quantity requested for product `id` by the lines of a cart. -/
def demanda (id : Int) (lineas : List Producto) : Int :=
  ((lineas.filter fun l => l.id = id).map fun l => l.cantidad).sum

/-- The `pedidos` row inserted for a cart line. -/
def Producto.pedido (l : Producto) : Pedido := ⟨l.nombre, l.precio, l.cantidad⟩

/-- Stock of product `id` as a query inside the transaction reads it once the
lines `previas` have been processed: the committed stock minus their decrements. -/
def disponibleTras (db : Db) (previas : List Producto) (id : Int) : Option Int :=
  (stockOf db.pan id).map fun q => q - demanda id previas

/-- Line `l` passes both checks of the loop when it comes after the lines `previas`. -/
def cabe (db : Db) (previas : List Producto) (l : Producto) : Prop :=
  match disponibleTras db previas l.id with
  | some q => l.cantidad ≤ q
  | none => False

instance (db : Db) (previas : List Producto) (l : Producto) : Decidable (cabe db previas l) := by
  unfold cabe
  split <;> infer_instance

/-- Every line of the cart passes both checks when its turn comes. -/
def caben (db : Db) (cart : List Producto) : Prop :=
  ∀ (i : Nat) (hi : i < cart.length), cabe db (cart.take i) cart[i]

instance (db : Db) (cart : List Producto) : Decidable (caben db cart) := by
  unfold caben
  infer_instance

/-- Table `pan` with every row decremented by the demand of the cart for its id. -/
def descontar (cart : List Producto) (pan : List PanRow) : List PanRow :=
  pan.map fun r => { r with cantidad := r.cantidad - demanda r.id cart }

/-! ## The loop as a function on the tables (proof device) -/

/-- The error line `l` throws against tables `w`, when it throws. -/
def lineaFalla (w : Db) (l : Producto) : Option String :=
  match selectCantidadPan w.pan l.id with
  | [] => some (mensajeNoEncontrado l.id)
  | q :: _ => if q < l.cantidad then some (mensajeStockInsuficiente l.nombre q l.cantidad) else none

/-- The two writes of line `l`. -/
def lineaEfecto (w : Db) (l : Producto) : Db :=
  (Write.updatePan l.cantidad l.id).aplicar ((Write.insertPedido l.pedido).aplicar w)

/-- The loop over the tables the transaction sees. -/
def recorrer : List Producto → Db → Except String Db
  | [], w => .ok w
  | l :: ls, w =>
    match lineaFalla w l with
    | some m => .error m
    | none => recorrer ls (lineaEfecto w l)

/-! ## Two handlers, interleaved

Each handler runs on its own connection. A store call is one atomic step; the steps of the
two handlers are interleaved by a schedule. Store semantics assumed for the interleaving
(the database engine is not part of the repository): a plain `SELECT` takes no lock and
reads the committed rows with the connection's own pending writes applied; the writes of a
transaction stay pending until its `commit`, which applies them to the rows committed at
that moment; an `UPDATE` of a row waits while the other transaction holds a pending
`UPDATE` of the same row. -/

/-- A connection serving one request. -/
structure Sesion where
  proc : Proc
  tx : Option (List Write)
  responses : List Response

/-- The shared tables and the two connections. -/
structure Sistema where
  committed : Db
  primera : Sesion
  segunda : Sesion

/-- Which handler takes the next step. -/
inductive Turno where
  | primera
  | segunda
deriving DecidableEq

/-- A handler that has run to its end. -/
def Proc.terminado : Proc → Bool
  | .done => true
  | _ => false

/-- The request as it arrives. -/
def Sesion.nueva (productos : Option (List Producto)) : Sesion :=
  ⟨guardarCarrito productos, none, []⟩

/-- The call has to wait for a row lock held by the other transaction. -/
def bloqueada (o : Op) (otra : Sesion) : Bool :=
  match o, otra.tx with
  | .updatePan _ id, some pendientes =>
    pendientes.any fun w =>
      match w with
      | .updatePan _ id' => id' = id
      | _ => false
  | _, _ => false

/-- One step of a handler against the shared tables; `none` when it has ended or waits. -/
def Sesion.paso (s : Sesion) (committed : Db) (otra : Sesion) : Option (Db × Sesion) :=
  match s.proc with
  | .done => none
  | .respond r k => some (committed, { s with proc := k, responses := s.responses ++ [r] })
  | .call o k =>
    if bloqueada o otra then none
    else
      let antes : Estado := ⟨committed, s.tx, [], []⟩
      let despues := efecto o antes
      some (despues.committed, { s with proc := k (resultado o antes), tx := despues.tx })

/-- Run a schedule; `none` when it asks a step of a handler that cannot take one. -/
def correr : List Turno → Sistema → Option Sistema
  | [], sys => some sys
  | .primera :: ts, sys =>
    match sys.primera.paso sys.committed sys.segunda with
    | none => none
    | some (c, s) => correr ts { sys with committed := c, primera := s }
  | .segunda :: ts, sys =>
    match sys.segunda.paso sys.committed sys.primera with
    | none => none
    | some (c, s) => correr ts { sys with committed := c, segunda := s }

/-- What is observed of a run: both handlers ended, their responses, the committed tables. -/
def observar (r : Option Sistema) : Option (Bool × List Response × List Response × Db) :=
  r.map fun sys =>
    (sys.primera.proc.terminado && sys.segunda.proc.terminado,
      sys.primera.responses, sys.segunda.responses, sys.committed)

/-! ## Sample data -/

/-- A `pan` row with the given id and stock. -/
def panDe (id cantidad : Int) : PanRow := ⟨id, "pan", none, 1, cantidad, none⟩

/-- Stock 5 of product 1 and two requests of 3 units of it. -/
def dosPedidos : Sistema :=
  ⟨⟨[panDe 1 5], []⟩, Sesion.nueva (some [⟨1, "pan", 1, 3⟩]), Sesion.nueva (some [⟨1, "pan", 1, 3⟩])⟩

/-- Both handlers connect, begin and run their `SELECT` before either writes. -/
def horarioCarrera : List Turno :=
  [.primera, .primera, .segunda, .segunda, .primera, .segunda,
   .primera, .primera, .primera, .primera, .primera,
   .segunda, .segunda, .segunda, .segunda, .segunda]

/-- The first handler runs to its end before the second starts. -/
def horarioSerie : List Turno :=
  [.primera, .primera, .primera, .primera, .primera, .primera, .primera, .primera,
   .segunda, .segunda, .segunda, .segunda, .segunda, .segunda]

/-! ## The loop of the handler, step by step -/

theorem efecto_linea (s : Estado) (pend : List Write) (h : s.tx = some pend) (l : Producto) :
    (efecto (.updatePan (parseInt l.cantidad) l.id)
      (efecto (.insertPedido l.nombre (parseFloat l.precio) (parseInt l.cantidad))
        (efecto (.selectCantidad l.id) s))).vista = lineaEfecto s.vista l ∧
    (efecto (.updatePan (parseInt l.cantidad) l.id)
      (efecto (.insertPedido l.nombre (parseFloat l.precio) (parseInt l.cantidad))
        (efecto (.selectCantidad l.id) s))).tx
        = some (pend ++ [.insertPedido l.pedido] ++ [.updatePan l.cantidad l.id]) ∧
    (efecto (.updatePan (parseInt l.cantidad) l.id)
      (efecto (.insertPedido l.nombre (parseFloat l.precio) (parseInt l.cantidad))
        (efecto (.selectCantidad l.id) s))).committed = s.committed ∧
    (efecto (.updatePan (parseInt l.cantidad) l.id)
      (efecto (.insertPedido l.nombre (parseFloat l.precio) (parseInt l.cantidad))
        (efecto (.selectCantidad l.id) s))).responses = s.responses := by
  simp [efecto, Estado.escribir, Estado.vista, h, aplicarPendientes, List.foldl_append,
    lineaEfecto, parseInt, parseFloat, Producto.pedido]

theorem exec_forProductos (k : Proc) (ps : List Producto) :
    ∀ (s : Estado) (pend : List Write), s.tx = some pend →
      ∃ (s' : Estado) (pend' : List Write), s'.committed = s.committed ∧ s'.tx = some pend' ∧
        s'.responses = s.responses ∧
        match recorrer ps s.vista with
        | .ok w => s'.vista = w ∧ exec (forProductos ps k) s = exec k s'
        | .error m => exec (forProductos ps k) s = exec (catchBlock true m) s' := by
  induction ps with
  | nil => intro s pend h; exact ⟨s, pend, rfl, h, rfl, by simp [recorrer, forProductos]⟩
  | cons l ls ih =>
    intro s pend h
    cases hsel : selectCantidadPan s.vista.pan l.id with
    | nil =>
      refine ⟨efecto (.selectCantidad l.id) s, pend, rfl, h, rfl, ?_⟩
      simp [recorrer, lineaFalla, hsel, forProductos, exec, resultado]
    | cons q qs =>
      by_cases hq : q < l.cantidad
      · refine ⟨efecto (.selectCantidad l.id) s, pend, rfl, h, rfl, ?_⟩
        simp [recorrer, lineaFalla, hsel, forProductos, exec, resultado, hq]
      · obtain ⟨e1, e2, e3, e4⟩ := efecto_linea s pend h l
        obtain ⟨s', pend', c1, c2, c3, c4⟩ := ih _ _ e2
        refine ⟨s', pend', c1.trans e3, c2, c3.trans e4, ?_⟩
        rw [e1] at c4
        have hrec : recorrer (l :: ls) s.vista = recorrer ls (lineaEfecto s.vista l) := by
          simp [recorrer, lineaFalla, hsel, hq]
        have hex : exec (forProductos (l :: ls) k) s = exec (forProductos ls k)
            (efecto (.updatePan (parseInt l.cantidad) l.id)
              (efecto (.insertPedido l.nombre (parseFloat l.precio) (parseInt l.cantidad))
                (efecto (.selectCantidad l.id) s))) := by
          simp [forProductos, exec, resultado, hsel, hq]
        rw [hrec, hex]; exact c4

theorem placeOrder_recorrer (cart : List Producto) (hne : cart ≠ []) (db : Db) :
    (placeOrder (some cart) db).tx = none ∧
    match recorrer cart db with
    | .ok w => (placeOrder (some cart) db).committed = w ∧
        (placeOrder (some cart) db).responses = [respuestaOk]
    | .error m => (placeOrder (some cart) db).committed = db ∧
        (placeOrder (some cart) db).responses = [⟨500, .error (mensajeRespuesta m)⟩] := by
  have hlen : cart.length ≠ 0 := by simpa using hne
  have hpo : placeOrder (some cart) db
      = exec (forProductos cart (.call .commit fun _ =>
              .respond respuestaOk (.call .release fun _ => .done)))
          (efecto .beginTransaction (efecto .getConnection ⟨db, none, [], []⟩)) := by
    simp [placeOrder, guardarCarrito, hlen, exec]
  obtain ⟨s', pend', c1, c2, c3, c4⟩ := exec_forProductos
    (.call .commit fun _ => .respond respuestaOk (.call .release fun _ => .done)) cart
    (efecto .beginTransaction (efecto .getConnection ⟨db, none, [], []⟩)) [] rfl
  have hv0 : (efecto .beginTransaction (efecto .getConnection ⟨db, none, [], []⟩)).vista = db := rfl
  have hc0 : (efecto .beginTransaction (efecto .getConnection ⟨db, none, [], []⟩)).committed = db :=
    rfl
  have hr0 : (efecto .beginTransaction (efecto .getConnection ⟨db, none, [], []⟩)).responses = [] :=
    rfl
  rw [hv0] at c4
  rw [hc0] at c1
  rw [hr0] at c3
  rw [hpo]
  cases hrec : recorrer cart db with
  | ok w =>
    rw [hrec] at c4
    obtain ⟨c4, c5⟩ := c4
    rw [c5]
    simp [exec, efecto, c3]
    exact c4
  | error m =>
    rw [hrec] at c4
    rw [c4]
    simp [exec, efecto, catchBlock, c3, c1]

/-! ## The loop in closed form -/

theorem demanda_nil (id : Int) : demanda id [] = 0 := rfl

theorem demanda_cons (id : Int) (l : Producto) (ls : List Producto) :
    demanda id (l :: ls) = (if l.id = id then l.cantidad else 0) + demanda id ls := by
  by_cases h : l.id = id <;> simp [demanda, List.filter_cons, h]

theorem demanda_append (id : Int) (a b : List Producto) :
    demanda id (a ++ b) = demanda id a + demanda id b := by
  simp [demanda, List.filter_append]

theorem descontar_nil (pan : List PanRow) : descontar [] pan = pan := by
  simp [descontar, demanda_nil]

theorem descontar_update (l : Producto) (ls : List Producto) (pan : List PanRow) :
    descontar ls (updateCantidadPan pan l.cantidad l.id) = descontar (l :: ls) pan := by
  simp only [descontar, updateCantidadPan, List.map_map]
  apply List.map_congr_left
  intro r _
  rcases eq_or_ne r.id l.id with h | h
  · simp [h, demanda_cons, sub_sub]
  · simp [h, h.symm, demanda_cons]

theorem selectCantidadPan_descontar (cart : List Producto) (pan : List PanRow) (id : Int) :
    selectCantidadPan (descontar cart pan) id
      = (selectCantidadPan pan id).map fun q => q - demanda id cart := by
  induction pan with
  | nil => rfl
  | cons r rs ih =>
    simp only [descontar, selectCantidadPan, List.map_cons] at ih ⊢
    by_cases h : r.id = id
    · simp [List.filter_cons, h, ih]
    · simp [List.filter_cons, h, ih]

theorem stockOf_descontar (cart : List Producto) (pan : List PanRow) (id : Int) :
    stockOf (descontar cart pan) id = (stockOf pan id).map fun q => q - demanda id cart := by
  simp only [stockOf, selectCantidadPan_descontar]
  cases selectCantidadPan pan id <;> rfl

theorem recorrer_ok_eq (cart : List Producto) :
    ∀ (w w' : Db), recorrer cart w = .ok w' →
      w' = ⟨descontar cart w.pan, w.pedidos ++ cart.map Producto.pedido⟩ := by
  induction cart with
  | nil => intro w w' h; simp [recorrer] at h; simp [descontar_nil, ← h]
  | cons l ls ih =>
    intro w w' h
    cases hf : lineaFalla w l with
    | some m => simp [recorrer, hf] at h
    | none =>
      simp only [recorrer, hf] at h
      rw [ih _ _ h]
      simp [lineaEfecto, Write.aplicar, descontar_update]

theorem recorrer_append (a b : List Producto) :
    ∀ (w : Db), recorrer (a ++ b) w =
      match recorrer a w with
      | .ok w' => recorrer b w'
      | .error m => .error m := by
  induction a with
  | nil => intro w; rfl
  | cons l ls ih =>
    intro w
    cases hf : lineaFalla w l with
    | some m => simp [recorrer, hf]
    | none => simp [recorrer, hf, ih]

/-- What line `l` does after the lines `a` went through. -/
theorem lineaFalla_tras (db : Db) (a : List Producto) (peds : List Pedido) (l : Producto) :
    lineaFalla ⟨descontar a db.pan, peds⟩ l =
      match disponibleTras db a l.id with
      | none => some (mensajeNoEncontrado l.id)
      | some q =>
        if q < l.cantidad then some (mensajeStockInsuficiente l.nombre q l.cantidad) else none := by
  simp only [lineaFalla, disponibleTras, stockOf, selectCantidadPan_descontar]
  cases selectCantidadPan db.pan l.id <;> rfl

theorem caben_snoc (db : Db) (a : List Producto) (l : Producto) :
    caben db (a ++ [l]) ↔ caben db a ∧ cabe db a l := by
  constructor
  · intro h
    constructor
    · intro i hi
      have hi' : i < (a ++ [l]).length := by simp; omega
      have := h i hi'
      rwa [List.take_append_of_le_length (by omega), List.getElem_append_left hi] at this
    · have hi' : a.length < (a ++ [l]).length := by simp
      have := h a.length hi'
      simpa using this
  · rintro ⟨h1, h2⟩ i hi
    by_cases hlt : i < a.length
    · rw [List.take_append_of_le_length (by omega), List.getElem_append_left hlt]
      exact h1 i hlt
    · have hi' : i = a.length := by simp at hi; omega
      subst hi'
      simpa using h2

theorem caben_append_left (db : Db) (a : List Producto) :
    ∀ b : List Producto, caben db (a ++ b) → caben db a := by
  intro b
  induction b using List.reverseRecOn with
  | nil => simp
  | append_singleton bs l ih =>
    intro h
    rw [← List.append_assoc] at h
    exact ih ((caben_snoc db _ l).1 h).1

theorem descontar_snoc (a : List Producto) (l : Producto) (pan : List PanRow) :
    updateCantidadPan (descontar a pan) l.cantidad l.id = descontar (a ++ [l]) pan := by
  simp only [descontar, updateCantidadPan, List.map_map]
  apply List.map_congr_left
  intro r _
  rcases eq_or_ne r.id l.id with h | h
  · simp [h, demanda_append, demanda_cons, demanda_nil, sub_sub]
  · simp [h, h.symm, demanda_append, demanda_cons, demanda_nil]

theorem recorrer_singleton (w : Db) (l : Producto) :
    recorrer [l] w =
      match lineaFalla w l with
      | some m => .error m
      | none => .ok (lineaEfecto w l) := by
  cases hf : lineaFalla w l <;> simp [recorrer, hf]

theorem recorrer_caben (db : Db) (cart : List Producto) :
    caben db cart ↔
      recorrer cart db = .ok ⟨descontar cart db.pan, db.pedidos ++ cart.map Producto.pedido⟩ := by
  induction cart using List.reverseRecOn with
  | nil => simp [caben, recorrer, descontar_nil]
  | append_singleton a l ih =>
    rw [caben_snoc, recorrer_append]
    constructor
    · rintro ⟨h1, h2⟩
      rw [ih.1 h1]
      simp only [recorrer_singleton, lineaFalla_tras]
      unfold cabe at h2
      cases hd : disponibleTras db a l.id with
      | none => simp [hd] at h2
      | some q =>
        simp only [hd] at h2
        have : ¬ q < l.cantidad := by omega
        simp [this, lineaEfecto, Write.aplicar, descontar_snoc]
    · intro h
      cases hr : recorrer a db with
      | error m => simp [hr] at h
      | ok w =>
        have hw := recorrer_ok_eq a db w hr
        rw [hw] at hr
        refine ⟨ih.2 hr, ?_⟩
        rw [hr] at h
        simp only [recorrer_singleton, lineaFalla_tras] at h
        unfold cabe
        cases hd : disponibleTras db a l.id with
        | none => simp [hd] at h
        | some q =>
          simp only [hd] at h ⊢
          by_cases hq : q < l.cantidad
          · simp [hq] at h
          · omega

/-- The loop succeeds exactly on the carts whose lines all fit. -/
theorem recorrer_ok_iff (db : Db) (cart : List Producto) :
    (∃ w, recorrer cart db = .ok w) ↔ caben db cart := by
  constructor
  · rintro ⟨w, h⟩
    have hw := recorrer_ok_eq cart db w h
    rw [hw] at h
    exact (recorrer_caben db cart).2 h
  · intro h
    exact ⟨_, (recorrer_caben db cart).1 h⟩

theorem placeOrder_vacio (db : Db) :
    placeOrder none db = ⟨db, none, [], [respuestaVacio]⟩ ∧
    placeOrder (some []) db = ⟨db, none, [], [respuestaVacio]⟩ := by
  constructor <;> rfl

theorem placeOrder_exito (db : Db) (cart : List Producto) (hne : cart ≠ []) (h : caben db cart) :
    (placeOrder (some cart) db).committed
        = ⟨descontar cart db.pan, db.pedidos ++ cart.map Producto.pedido⟩ ∧
      (placeOrder (some cart) db).responses = [respuestaOk] := by
  have := (placeOrder_recorrer cart hne db).2
  rw [(recorrer_caben db cart).1 h] at this
  exact this

theorem placeOrder_falla (db : Db) (cart : List Producto) (hne : cart ≠ []) (h : ¬ caben db cart) :
    (placeOrder (some cart) db).committed = db ∧
      ∃ m, recorrer cart db = .error m ∧
        (placeOrder (some cart) db).responses = [⟨500, .error (mensajeRespuesta m)⟩] := by
  have := (placeOrder_recorrer cart hne db).2
  cases hr : recorrer cart db with
  | ok w => exact absurd ((recorrer_ok_iff db cart).1 ⟨w, hr⟩) h
  | error m =>
    rw [hr] at this
    exact ⟨this.1, m, rfl, this.2⟩

theorem exito_iff (db : Db) (cart : List Producto) :
    (placeOrder (some cart) db).responses = [respuestaOk] ↔ cart ≠ [] ∧ caben db cart := by
  constructor
  · intro h
    by_cases hne : cart = []
    · subst hne
      rw [(placeOrder_vacio db).2] at h
      simp [respuestaOk, respuestaVacio] at h
    · refine ⟨hne, ?_⟩
      by_contra hc
      obtain ⟨_, m, _, hm⟩ := placeOrder_falla db cart hne hc
      rw [hm] at h
      simp [respuestaOk] at h
  · rintro ⟨hne, hc⟩
    exact (placeOrder_exito db cart hne hc).2

theorem falla_committed (db : Db) (productos : Option (List Producto))
    (h : (placeOrder productos db).responses ≠ [respuestaOk]) :
    (placeOrder productos db).committed = db := by
  cases productos with
  | none => rfl
  | some cart =>
    by_cases hne : cart = []
    · subst hne; rfl
    · by_cases hc : caben db cart
      · exact absurd (placeOrder_exito db cart hne hc).2 h
      · exact (placeOrder_falla db cart hne hc).1

theorem demanda_nonneg (id : Int) (a : List Producto)
    (h : ∀ p ∈ a, p.id = id → 0 ≤ p.cantidad) : 0 ≤ demanda id a := by
  induction a with
  | nil => simp [demanda_nil]
  | cons p ps ih =>
    rw [demanda_cons]
    have h1 := ih fun p' hp' => h p' (List.mem_cons_of_mem _ hp')
    by_cases hp : p.id = id
    · have := h p (List.mem_cons_self _ _) hp
      simp [hp]; omega
    · simp [hp]; exact h1

theorem stockOf_of_mem (pan : List PanRow) (hpk : (pan.map fun r => r.id).Nodup) :
    ∀ r ∈ pan, stockOf pan r.id = some r.cantidad := by
  induction pan with
  | nil => intro r hr; simp at hr
  | cons r0 rs ih =>
    intro r hr
    rw [List.map_cons, List.nodup_cons] at hpk
    rcases List.mem_cons.1 hr with h | h
    · subst h
      simp [stockOf, selectCantidadPan, List.filter_cons]
    · have hne : r0.id ≠ r.id := by
        intro e
        exact hpk.1 (e ▸ List.mem_map_of_mem (fun r => r.id) h)
      have := ih hpk.2 r h
      simpa [stockOf, selectCantidadPan, List.filter_cons, hne] using this

theorem demanda_le_of_caben (db : Db) (id q : Int) (hq : stockOf db.pan id = some q)
    (h0 : 0 ≤ q) (cart : List Producto) : caben db cart → demanda id cart ≤ q := by
  induction cart using List.reverseRecOn with
  | nil => intro _; simpa [demanda_nil] using h0
  | append_singleton a l ih =>
    intro h
    obtain ⟨h1, h2⟩ := (caben_snoc db a l).1 h
    have iha := ih h1
    rw [demanda_append, demanda_cons, demanda_nil]
    by_cases hl : l.id = id
    · subst hl
      simp [cabe, disponibleTras, hq] at h2
      simp; omega
    · simp [hl]; exact iha

/-- C2 (as stated, refuted): stock 2 of product 1 and the cart [-5 of product 1, 4 of
product 1]. The second line asks more than the stock at the time of the call, yet the order
is accepted: the first line raises the stock to 7, the second lowers it to 3, and two
pedidos rows are committed. -/
theorem placeOrder_accepts_after_negative_line :
    (∃ l ∈ ([⟨1, "pan", 1, -5⟩, ⟨1, "pan", 1, 4⟩] : List Producto),
      ∃ q, stockOf [panDe 1 2] l.id = some q ∧ q < l.cantidad) ∧
    (placeOrder (some [⟨1, "pan", 1, -5⟩, ⟨1, "pan", 1, 4⟩]) ⟨[panDe 1 2], []⟩).responses
      = [respuestaOk] ∧
    (placeOrder (some [⟨1, "pan", 1, -5⟩, ⟨1, "pan", 1, 4⟩]) ⟨[panDe 1 2], []⟩).committed
      = ⟨[panDe 1 3], [⟨"pan", 1, -5⟩, ⟨"pan", 1, 4⟩]⟩ := by
  decide

/-- C2 (amended): full rollback. For every store state and every cart containing a line that
asks more than the current stock of the product it names, where no earlier line naming the
same product has a negative quantity, placeOrder fails (one response, status 500) and the
committed tables after the call equal the tables before it. -/
theorem placeOrder_rolls_back_when_stock_insufficient (db : Db) (a : List Producto)
    (l : Producto) (b : List Producto) (q : Int)
    (hq : stockOf db.pan l.id = some q) (hgt : q < l.cantidad)
    (hpos : ∀ p ∈ a, p.id = l.id → 0 ≤ p.cantidad) :
    (∃ m, (placeOrder (some (a ++ l :: b)) db).responses = [⟨500, .error m⟩]) ∧
    (placeOrder (some (a ++ l :: b)) db).committed = db := by
  have hno : ¬ caben db (a ++ l :: b) := by
    intro h
    have h' : caben db ((a ++ [l]) ++ b) := by simpa using h
    have hl := ((caben_snoc db a l).1 (caben_append_left db _ b h')).2
    have hd := demanda_nonneg l.id a hpos
    simp [cabe, disponibleTras, hq] at hl
    omega
  obtain ⟨h1, m, _, h2⟩ := placeOrder_falla db (a ++ l :: b) (by simp) hno
  exact ⟨⟨_, h2⟩, h1⟩

/-- Witness of C2 (amended): stock 2 of product 1, stock 9 of product 2, and the cart
[1 of product 2, 5 of product 1, 1 of product 2]. -/
theorem placeOrder_rolls_back_when_stock_insufficient_witness :
    (placeOrder (some ([⟨2, "bollo", 1, 1⟩] ++ ⟨1, "pan", 1, 5⟩ :: [⟨2, "bollo", 1, 1⟩]))
      ⟨[panDe 1 2, panDe 2 9], []⟩).committed = ⟨[panDe 1 2, panDe 2 9], []⟩ :=
  (placeOrder_rolls_back_when_stock_insufficient ⟨[panDe 1 2, panDe 2 9], []⟩
    [⟨2, "bollo", 1, 1⟩] ⟨1, "pan", 1, 5⟩ [⟨2, "bollo", 1, 1⟩] 2
    (by decide) (by decide) (by decide)).2

/-- C4: stock non-negativity is an invariant of placeOrder. For every store state in which
the stock of every product is non-negative and for every request (absent, empty or any
cart, repeated products included), the stock of every product is still non-negative after
placeOrder returns, whether it succeeded or failed; with ids that identify the rows of pan,
every row of pan has a non-negative cantidad. -/
theorem placeOrder_keeps_stock_nonnegative (db : Db) (productos : Option (List Producto))
    (h0 : ∀ id q, stockOf db.pan id = some q → 0 ≤ q) :
    (∀ id q, stockOf (placeOrder productos db).committed.pan id = some q → 0 ≤ q) ∧
    ((db.pan.map fun r => r.id).Nodup →
      ∀ r ∈ (placeOrder productos db).committed.pan, 0 ≤ r.cantidad) := by
  by_cases hok : (placeOrder productos db).responses = [respuestaOk]
  · cases productos with
    | none => exact absurd hok (by simp [(placeOrder_vacio db).1, respuestaOk, respuestaVacio])
    | some cart =>
      obtain ⟨hne, hfit⟩ := (exito_iff db cart).1 hok
      rw [(placeOrder_exito db cart hne hfit).1]
      constructor
      · intro id q hq
        rw [stockOf_descontar] at hq
        cases hs : stockOf db.pan id with
        | none => simp [hs] at hq
        | some q0 =>
          simp only [hs, Option.map_some', Option.some.injEq] at hq
          have := demanda_le_of_caben db id q0 hs (h0 id q0 hs) cart hfit
          omega
      · intro hpk r hr
        simp only [descontar, List.mem_map] at hr
        obtain ⟨r', hr', rfl⟩ := hr
        have hs := stockOf_of_mem db.pan hpk r' hr'
        have := demanda_le_of_caben db r'.id r'.cantidad hs (h0 _ _ hs) cart hfit
        simp only
        omega
  · rw [falla_committed db productos hok]
    exact ⟨h0, fun hpk r hr => h0 _ _ (stockOf_of_mem db.pan hpk r hr)⟩

/-- Witness of C4: stock 5 of product 1 and a cart asking 3 and then 2 of it. -/
theorem placeOrder_keeps_stock_nonnegative_witness :
    ((placeOrder (some [⟨1, "pan", 1, 3⟩, ⟨1, "pan", 1, 2⟩])
      ⟨[panDe 1 5], []⟩).committed.pan.all fun r => decide (0 ≤ r.cantidad)) = true :=
  List.all_eq_true.2 fun r hr => decide_eq_true
    ((placeOrder_keeps_stock_nonnegative ⟨[panDe 1 5], []⟩
      (some [⟨1, "pan", 1, 3⟩, ⟨1, "pan", 1, 2⟩])
      (by
        intro id q h
        by_cases hid : id = 1
        · subst hid
          have : q = 5 := by simpa [stockOf, selectCantidadPan, panDe] using h.symm
          omega
        · have hid' : ¬ (1 : Int) = id := fun e => hid e.symm
          simp [stockOf, selectCantidadPan, panDe, hid'] at h)).2 (by decide) r hr)

/-- C8 (as stated, refuted): an empty ledger, stock 5 of product 1 and the cart [0 of
product 1]. The handler accepts the cart and commits a pedidos row of quantity 0. -/
theorem placeOrder_accepts_zero_quantity :
    (placeOrder (some [⟨1, "pan", 1, 0⟩]) ⟨[panDe 1 5], []⟩).responses = [respuestaOk] ∧
    (placeOrder (some [⟨1, "pan", 1, 0⟩]) ⟨[panDe 1 5], []⟩).committed.pedidos
      = [⟨"pan", 1, 0⟩] ∧
    ¬ ∀ o ∈ (placeOrder (some [⟨1, "pan", 1, 0⟩]) ⟨[panDe 1 5], []⟩).committed.pedidos,
      0 < o.cantidad := by
  decide

/-- C8 (amended): if every row of the ledger has quantity > 0 before a call, then after any
call of placeOrder with a cart whose lines all have cantidad > 0, every row of the ledger,
the newly appended ones included, has quantity > 0. -/
theorem placeOrder_keeps_ledger_positive (db : Db) (cart : List Producto)
    (hdb : ∀ o ∈ db.pedidos, 0 < o.cantidad) (hcart : ∀ l ∈ cart, 0 < l.cantidad) :
    ∀ o ∈ (placeOrder (some cart) db).committed.pedidos, 0 < o.cantidad := by
  by_cases hok : (placeOrder (some cart) db).responses = [respuestaOk]
  · obtain ⟨hne, hfit⟩ := (exito_iff db cart).1 hok
    rw [(placeOrder_exito db cart hne hfit).1]
    intro o ho
    rcases List.mem_append.1 ho with h | h
    · exact hdb o h
    · obtain ⟨l, hl, rfl⟩ := List.mem_map.1 h
      exact hcart l hl
  · rw [falla_committed db (some cart) hok]
    exact hdb

/-- Witness of C8 (amended): a ledger with one row of quantity 1, stock 10 of product 1 and
the cart [4 of product 1]. -/
theorem placeOrder_keeps_ledger_positive_witness :
    ((placeOrder (some [⟨1, "pan", 3, 4⟩])
      ⟨[panDe 1 10], [⟨"torta", 9, 1⟩]⟩).committed.pedidos.all fun o => decide (0 < o.cantidad))
      = true :=
  List.all_eq_true.2 fun o ho => decide_eq_true
    (placeOrder_keeps_ledger_positive ⟨[panDe 1 10], [⟨"torta", 9, 1⟩]⟩ [⟨1, "pan", 3, 4⟩]
      (by decide) (by decide) o ho)

theorem exec_log (p : Proc) :
    ∀ (db : Db) (tx : Option (List Write)) (lg lg' : List Op) (rs : List Response),
      (exec p ⟨db, tx, lg, rs⟩).committed = (exec p ⟨db, tx, lg', rs⟩).committed ∧
      (exec p ⟨db, tx, lg, rs⟩).tx = (exec p ⟨db, tx, lg', rs⟩).tx ∧
      (exec p ⟨db, tx, lg, rs⟩).responses = (exec p ⟨db, tx, lg', rs⟩).responses := by
  induction p with
  | done => intro db tx lg lg' rs; exact ⟨rfl, rfl, rfl⟩
  | respond r k ih => intro db tx lg lg' rs; exact ih db tx lg lg' _
  | call o k ih =>
    intro db tx lg lg' rs
    have hres : resultado o ⟨db, tx, lg, rs⟩ = resultado o ⟨db, tx, lg', rs⟩ := by
      cases o <;> rfl
    simp only [exec, hres]
    cases o <;> cases tx <;> exact ih _ _ _ _ _ _

theorem correr_primera_sola (p : Proc) :
    ∀ (db : Db) (tx : Option (List Write)) (rs : List Response) (otra : Sesion),
      otra.tx = none →
      ∃ n, correr (List.replicate n .primera) ⟨db, ⟨p, tx, rs⟩, otra⟩
        = some ⟨(exec p ⟨db, tx, [], rs⟩).committed,
            ⟨.done, (exec p ⟨db, tx, [], rs⟩).tx, (exec p ⟨db, tx, [], rs⟩).responses⟩, otra⟩ := by
  induction p with
  | done => intro db tx rs otra _; exact ⟨0, rfl⟩
  | respond r k ih =>
    intro db tx rs otra h
    obtain ⟨n, hn⟩ := ih db tx (rs ++ [r]) otra h
    exact ⟨n + 1, by simpa [List.replicate_succ, correr, Sesion.paso, exec] using hn⟩
  | call o k ih =>
    intro db tx rs otra h
    have hb : bloqueada o otra = false := by
      cases o <;> simp [bloqueada, h]
    obtain ⟨n, hn⟩ := ih (resultado o ⟨db, tx, [], rs⟩) (efecto o ⟨db, tx, [], []⟩).committed
      (efecto o ⟨db, tx, [], []⟩).tx rs otra h
    refine ⟨n + 1, ?_⟩
    have hres : resultado o ⟨db, tx, [], []⟩ = resultado o ⟨db, tx, [], rs⟩ := by
      cases o <;> rfl
    have hstep : exec (Proc.call o k) ⟨db, tx, [], rs⟩
        = exec (k (resultado o ⟨db, tx, [], rs⟩))
            ⟨(efecto o ⟨db, tx, [], []⟩).committed, (efecto o ⟨db, tx, [], []⟩).tx, [o], rs⟩ := by
      cases o <;> cases tx <;> rfl
    obtain ⟨e1, e2, e3⟩ := exec_log (k (resultado o ⟨db, tx, [], rs⟩))
      (efecto o ⟨db, tx, [], []⟩).committed (efecto o ⟨db, tx, [], []⟩).tx [o] [] rs
    rw [hstep, e1, e2, e3]
    simpa [List.replicate_succ, correr, Sesion.paso, hb, hres] using hn

/-! ## The claim on two concurrent handlers -/

/-- C9 (the code against the claim): stock 5 of product 1 and two concurrent requests of 3
units each. In the interleaving where both handlers run their plain SELECT before either
runs its UPDATE, both read 5, both pass the check, both commit and both answer with the
success response; the final stock is -1 and the ledger has both rows. -/
theorem concurrent_orders_both_succeed :
    observar (correr horarioCarrera dosPedidos)
      = some (true, [respuestaOk], [respuestaOk],
          ⟨[panDe 1 (-1)], [⟨"pan", 1, 3⟩, ⟨"pan", 1, 3⟩]⟩) := by
  decide

/-- The same two requests one after the other: the second reads 2 and is rejected. -/
theorem serial_orders_second_rejected :
    observar (correr horarioSerie dosPedidos)
      = some (true, [respuestaOk],
          [⟨500, .error "Stock insuficiente para pan. Disponible: 2, Solicitado: 3"⟩],
          ⟨[panDe 1 2], [⟨"pan", 1, 3⟩]⟩) := by
  decide

end Panaderia
